import Mathlib

/-!
Verification of the connection core of a Tarantool iproto client
(`connection.go`): correlation-ID allocation, the pending-request
registry, reply-channel delivery, the Router's backpressure policy,
framing, teardown, and the `Connect` handshake paths.

The Go source is shallowly embedded: machine `uint32` arithmetic is
`Nat` with explicit `% 2^32`, channels are recorded event lists,
`map[uint32]*request` is an association list, and the per-goroutine
loops become explicit step functions on state.
-/

namespace Tnt

/-- `math.MaxUint32`. -/
def maxUint32 : Nat := 2 ^ 32 - 1

/-- The error values the connection synthesizes or decodes
(`NewConnectionError`, `QueryError`, `ConnectionClosedError`). -/
inductive TntError where
  | connection (msg : String)
  | query (msg : String)
  | connectionClosed
deriving DecidableEq, Repr

/-- A decoded inbound message (`Response`): correlation ID plus an
optional inline error. -/
structure Response where
  requestID : Nat := 0
  error : Option TntError := none
deriving DecidableEq, Repr

/-- The observable state of one reply channel (`chan *Response`):
the values sent on it so far, and whether it has been closed. -/
structure ChanSt where
  sent : List Response := []
  closed : Bool := false
deriving DecidableEq, Repr

/-- `ch <- res`: record one delivery on the channel. -/
def send (ch : ChanSt) (res : Response) : ChanSt :=
  { ch with sent := ch.sent ++ [res] }

/-- `close(ch)`. -/
def closeChan (ch : ChanSt) : ChanSt :=
  { ch with closed := true }

/-- One caller-submitted `request`: the token identifies its single-use
reply channel, `query` is the payload's `Pack(requestID, defaultSpace)`
collaborator, `raw` holds the serialized bytes once packed. -/
structure Request where
  token : Nat
  query : Nat → String → Except String (List Nat)
  raw : List Nat := []

/-- Lookup in the pending-request registry (`conn.requests[id]`). -/
def lookupReq : List (Nat × Request) → Nat → Option Request
  | [], _ => none
  | p :: rest, id => if p.1 = id then some p.2 else lookupReq rest id

/-- `delete(conn.requests, id)`. -/
def eraseReq : List (Nat × Request) → Nat → List (Nat × Request)
  | [], _ => []
  | p :: rest, id => if p.1 = id then eraseReq rest id else p :: eraseReq rest id

/-- Point update of the token-indexed channel store. -/
def updateChan (f : Nat → ChanSt) (t : Nat) (ch : ChanSt) : Nat → ChanSt :=
  fun u => if u = t then ch else f u

/-- The Router-owned connection state: the `uint32` ID counter, the
default space, the pending-request registry, the channel store, and
whether `conn.closed` has been closed (set at the end of `worker`). -/
structure Conn where
  requestID : Nat := 0
  defaultSpace : String := ""
  requests : List (Nat × Request) := []
  chans : Nat → ChanSt := fun _ => {}
  closedDone : Bool := false

/-- `conn.nextID()`: reset to 0 at `math.MaxUint32`, then increment
(as a `uint32`). -/
def nextID (id : Nat) : Nat :=
  let id := if id = maxUint32 then 0 else id
  (id + 1) % 2 ^ 32

/-- The ID-counter state after `k` calls to `nextID` on a fresh
connection (`requestID` starts at 0); each call returns the new state. -/
def idAfter : Nat → Nat
  | 0 => 0
  | k + 1 => nextID (idAfter k)

/-- The `&Response{Error: NewConnectionError("Shred old requests")}`
delivered to an evicted registry entry. -/
def shredResponse : Response :=
  { error := some (.connection "Shred old requests") }

/-- The `&Response{Error: &QueryError{err}}` delivered on a local
serialization failure. -/
def queryErrorResponse (e : String) : Response :=
  { error := some (.query e) }

/-- The `&Response{Error: ConnectionClosedError()}` delivered to pending
requests at teardown. -/
def connClosedResponse : Response :=
  { error := some .connectionClosed }

/-- `conn.newRequest(r)`: allocate the next ID; if a still-registered
entry collides, fail it with a connection error, close its channel and
evict it; then pack the query — on failure deliver a query error to the
submitter (without closing its channel) and return the error, on
success register the packed request. Returns the updated connection and
`some` packed request on success (`nil` error), `none` on pack failure. -/
def newRequest (c : Conn) (r : Request) : Conn × Option Request :=
  let requestID := nextID c.requestID
  let c1 : Conn := { c with requestID := requestID }
  let c2 : Conn :=
    match lookupReq c1.requests requestID with
    | some old =>
        { c1 with
          chans := updateChan c1.chans old.token
            (closeChan (send (c1.chans old.token) shredResponse)),
          requests := eraseReq c1.requests requestID }
    | none => c1
  match r.query requestID c2.defaultSpace with
  | .error e =>
      ({ c2 with
         chans := updateChan c2.chans r.token
           (send (c2.chans r.token) (queryErrorResponse e)) }, none)
  | .ok raw =>
      ({ c2 with
         requests := c2.requests ++ [(requestID, { r with raw := raw })] },
       some { r with raw := raw })

/-- `conn.handleReply(res)`: if the correlation ID is registered,
deliver the response, close the channel, deregister; otherwise no-op. -/
def handleReply (c : Conn) (res : Response) : Conn :=
  match lookupReq c.requests res.requestID with
  | some req =>
      { c with
        chans := updateChan c.chans req.token
          (closeChan (send (c.chans req.token) res)),
        requests := eraseReq c.requests res.requestID }
  | none => c

/-- Fail one pending request at teardown: send `ConnectionClosedError`
and close its reply channel. -/
def failPending (chans : Nat → ChanSt) (req : Request) : Nat → ChanSt :=
  updateChan chans req.token
    (closeChan (send (chans req.token) connClosedResponse))

/-- The registry drain at the end of `worker`: every still-registered
request gets a connection-closed error, its channel is closed and the
entry deleted. -/
def drainRegistry (c : Conn) : Conn :=
  { c with
    chans := c.requests.foldl (fun ch p => failPending ch p.2) c.chans,
    requests := [] }

/-- The `FETCH_INPUT` drain at the end of `worker`: every request still
sitting in the submission queue gets a connection-closed error and its
channel is closed. -/
def drainInput (c : Conn) (pending : List Request) : Conn :=
  { c with chans := pending.foldl failPending c.chans }

/-- The tail of `worker` after the stages have been joined: drain the
registry, drain the submission queue, then `close(conn.closed)`. -/
def workerFinal (c : Conn) (pending : List Request) : Conn :=
  { drainInput (drainRegistry c) pending with closedDone := true }

end Tnt

namespace Tnt

lemma nextID_idAfter_eq (k : Nat) (h : k ≤ maxUint32) : idAfter k = k := by
  induction k with
  | zero => rfl
  | succ n ih =>
      have hn : n ≤ maxUint32 := Nat.le_of_succ_le h
      have hlt : n < maxUint32 := Nat.lt_of_succ_le h
      simp only [idAfter, ih hn, nextID]
      rw [if_neg (Nat.ne_of_lt hlt)]
      have : n + 1 < 2 ^ 32 := by
        have : maxUint32 + 1 = 2 ^ 32 := by norm_num [maxUint32]
        omega
      exact Nat.mod_eq_of_lt this

/-- C2: starting from a fresh connection, the `k`-th `nextID` call
returns `k` for every `k` up to `maxUint32` (so the first assigned ID
is 1 and consecutive IDs increase by exactly one, hence are pairwise
distinct with no value skipped); `nextID` never returns 0 from any
in-range counter state; and the call after the one returning
`maxUint32` returns 1. -/
theorem nextID_spec :
    (∀ k, k ≤ maxUint32 → idAfter k = k) ∧
    (∀ id, id < 2 ^ 32 → nextID id ≠ 0) ∧
    nextID maxUint32 = 1 := by
  refine ⟨nextID_idAfter_eq, ?_, by norm_num [nextID, maxUint32]⟩
  intro id hid
  simp only [nextID]
  split
  · norm_num
  · next hne =>
      have : id + 1 < 2 ^ 32 := by
        have : maxUint32 + 1 = 2 ^ 32 := by norm_num [maxUint32]
        omega
      rw [Nat.mod_eq_of_lt this]
      omega

/-- Witness for C2 at concrete inputs. -/
theorem nextID_spec_witness :
    idAfter 5 = 5 ∧ nextID 41 ≠ 0 :=
  ⟨nextID_spec.1 5 (by norm_num [maxUint32]),
   nextID_spec.2.1 41 (by norm_num)⟩

lemma lookupReq_eraseReq_self (l : List (Nat × Request)) (id : Nat) :
    lookupReq (eraseReq l id) id = none := by
  induction l with
  | nil => rfl
  | cons p rest ih =>
      simp only [eraseReq]
      split
      · exact ih
      · next hne => simp only [lookupReq, if_neg hne, ih]

lemma lookupReq_append_of_none (l1 l2 : List (Nat × Request)) (id : Nat)
    (h : lookupReq l1 id = none) :
    lookupReq (l1 ++ l2) id = lookupReq l2 id := by
  induction l1 with
  | nil => rfl
  | cons p rest ih =>
      simp only [lookupReq] at h ⊢
      rcases Nat.decEq p.1 id with hne | heq
      · rw [if_neg hne] at h ⊢
        exact ih h
      · rw [if_pos heq] at h
        exact absurd h (by simp)

/-- C3: when the freshly allocated ID collides with a still-registered
entry, `newRequest` delivers the "Shred old requests" connection error
to the old entry's channel and closes it, and afterwards the registry
maps that ID exactly to the newly packed request (whose token differs
from the old one's), so only the new entry is deliverable. -/
theorem newRequest_eviction (c : Conn) (r old : Request) (raw : List Nat)
    (hold : lookupReq c.requests (nextID c.requestID) = some old)
    (hpack : r.query (nextID c.requestID) c.defaultSpace = .ok raw)
    (htok : old.token ≠ r.token) :
    (((newRequest c r).1).chans old.token).sent
        = (c.chans old.token).sent ++ [shredResponse] ∧
    (((newRequest c r).1).chans old.token).closed = true ∧
    lookupReq ((newRequest c r).1).requests (nextID c.requestID)
        = some { r with raw := raw } ∧
    ∀ req, lookupReq ((newRequest c r).1).requests (nextID c.requestID)
        = some req → req.token = r.token ∧ req.token ≠ old.token := by
  have hl : lookupReq ((newRequest c r).1).requests (nextID c.requestID)
      = some { r with raw := raw } := by
    simp only [newRequest, hold, hpack]
    rw [lookupReq_append_of_none _ _ _ (lookupReq_eraseReq_self _ _)]
    simp [lookupReq]
  refine ⟨?_, ?_, hl, ?_⟩
  · simp [newRequest, hold, hpack, updateChan, send, closeChan]
  · simp [newRequest, hold, hpack, updateChan, closeChan]
  · intro req hreq
    rw [hl] at hreq
    have h := Option.some.inj hreq
    subst h
    exact ⟨rfl, fun h2 => htok h2.symm⟩

/-- A concrete registry entry that will be evicted. -/
def wOldC3 : Request := { token := 5, query := fun _ _ => .ok [] }

/-- A concrete connection whose next allocated ID (1) collides with the
registered entry `wOldC3`. -/
def wConnC3 : Conn := { requestID := 0, requests := [(1, wOldC3)] }

/-- A concrete colliding submission whose pack succeeds. -/
def wReqC3 : Request := { token := 6, query := fun i _ => .ok [i] }

/-- Witness for C3: the eviction theorem applied at a concrete colliding
state. -/
theorem newRequest_eviction_witness :
    (((newRequest wConnC3 wReqC3).1).chans wOldC3.token).sent
        = (wConnC3.chans wOldC3.token).sent ++ [shredResponse] ∧
    (((newRequest wConnC3 wReqC3).1).chans wOldC3.token).closed = true ∧
    lookupReq ((newRequest wConnC3 wReqC3).1).requests (nextID wConnC3.requestID)
        = some { wReqC3 with raw := [1] } ∧
    ∀ req, lookupReq ((newRequest wConnC3 wReqC3).1).requests (nextID wConnC3.requestID)
        = some req → req.token = wReqC3.token ∧ req.token ≠ wOldC3.token :=
  newRequest_eviction wConnC3 wReqC3 wOldC3 [1] rfl rfl (by decide)

lemma foldl_failPending_not_mem (l : List Request) (ch : Nat → ChanSt) (t : Nat)
    (h : t ∉ l.map Request.token) :
    (l.foldl failPending ch) t = ch t := by
  induction l generalizing ch with
  | nil => rfl
  | cons r rest ih =>
      simp only [List.map_cons, List.mem_cons] at h
      push_neg at h
      simp only [List.foldl_cons]
      rw [ih _ h.2]
      simp [failPending, updateChan, h.1]

lemma foldl_failPending_mem (l : List Request) (ch : Nat → ChanSt) (req : Request)
    (hmem : req ∈ l) (hnd : (l.map Request.token).Nodup) :
    (l.foldl failPending ch) req.token
      = closeChan (send (ch req.token) connClosedResponse) := by
  induction l generalizing ch with
  | nil => cases hmem
  | cons r rest ih =>
      simp only [List.map_cons, List.nodup_cons] at hnd
      rcases List.mem_cons.mp hmem with heq | hmem2
      · subst heq
        simp only [List.foldl_cons]
        rw [foldl_failPending_not_mem _ _ _ hnd.1]
        simp [failPending, updateChan]
      · simp only [List.foldl_cons]
        rw [ih _ hmem2 hnd.2]
        have hne : req.token ≠ r.token := by
          intro h
          exact hnd.1 (h ▸ List.mem_map_of_mem Request.token hmem2)
        simp [failPending, updateChan, hne]

/-- C1 (amended): each termination path delivers exactly one `Response`
to the affected request's fresh reply channel; the channel is then
closed on the normal-reply, wraparound-eviction and both teardown-drain
paths, but on the local-serialization-failure path the single query
error is delivered and the channel is left open (never closed). -/
theorem reply_delivery_per_path :
    (∀ (c : Conn) (res : Response) (req : Request),
      lookupReq c.requests res.requestID = some req →
      c.chans req.token = { sent := [], closed := false } →
      (handleReply c res).chans req.token = { sent := [res], closed := true }) ∧
    (∀ (c : Conn) (r : Request) (e : String),
      r.query (nextID c.requestID) c.defaultSpace = .error e →
      lookupReq c.requests (nextID c.requestID) = none →
      c.chans r.token = { sent := [], closed := false } →
      ((newRequest c r).1).chans r.token
        = { sent := [queryErrorResponse e], closed := false }) ∧
    (∀ (c : Conn) (r old : Request),
      lookupReq c.requests (nextID c.requestID) = some old →
      old.token ≠ r.token →
      c.chans old.token = { sent := [], closed := false } →
      ((newRequest c r).1).chans old.token
        = { sent := [shredResponse], closed := true }) ∧
    (∀ (c : Conn) (id : Nat) (req : Request),
      (id, req) ∈ c.requests →
      (c.requests.map (fun p => p.2.token)).Nodup →
      c.chans req.token = { sent := [], closed := false } →
      (drainRegistry c).chans req.token
        = { sent := [connClosedResponse], closed := true }) ∧
    (∀ (c : Conn) (pending : List Request) (req : Request),
      req ∈ pending →
      (pending.map Request.token).Nodup →
      c.chans req.token = { sent := [], closed := false } →
      (drainInput c pending).chans req.token
        = { sent := [connClosedResponse], closed := true }) := by
  refine ⟨?_, ?_, ?_, ?_, ?_⟩
  · intro c res req hreg hfresh
    simp [handleReply, hreg, updateChan, send, closeChan, hfresh]
  · intro c r e hpack hnone hfresh
    simp [newRequest, hpack, hnone, updateChan, send, hfresh]
  · intro c r old hold htok hfresh
    have htok2 : r.token ≠ old.token := Ne.symm htok
    cases hq : r.query (nextID c.requestID) c.defaultSpace with
    | error e =>
        simp [newRequest, hold, hq, updateChan, send, closeChan, hfresh, htok2]
        exact fun h => absurd h htok
    | ok raw =>
        simp [newRequest, hold, hq, updateChan, send, closeChan, hfresh]
  · intro c id req hmem hnd hfresh
    have hmem2 : req ∈ c.requests.map Prod.snd := by
      exact List.mem_map_of_mem Prod.snd hmem
    have hnd2 : ((c.requests.map Prod.snd).map Request.token).Nodup := by
      rw [List.map_map]
      exact hnd
    simp only [drainRegistry]
    rw [show (fun (ch : Nat → ChanSt) (p : Nat × Request) => failPending ch p.2)
          = fun ch p => failPending ch (Prod.snd p) from rfl,
        ← List.foldl_map Prod.snd failPending,
        foldl_failPending_mem _ _ _ hmem2 hnd2, hfresh]
    simp [send, closeChan]
  · intro c pending req hmem hnd hfresh
    simp only [drainInput]
    rw [foldl_failPending_mem _ _ _ hmem hnd, hfresh]
    simp [send, closeChan]

/-- A fresh connection with an empty registry. -/
def cxConn : Conn := {}

/-- A request whose payload fails to serialize. -/
def cxRequest : Request := { token := 0, query := fun _ _ => .error "encode failure" }

/-- C1 counterexample: on the local-serialization-failure path the reply
channel receives its single query-error value but is never closed, so
the claim that the channel "receives exactly one Response value and is
then closed" on every termination path is false at this input. -/
theorem reply_channel_unclosed_cx :
    (((newRequest cxConn cxRequest).1).chans cxRequest.token).sent
        = [queryErrorResponse "encode failure"] ∧
    (((newRequest cxConn cxRequest).1).chans cxRequest.token).closed = false :=
  ⟨rfl, rfl⟩

/-- Witness for C1 (amended), at the pack-failure path on a concrete
connection. -/
theorem reply_delivery_per_path_witness :
    ((newRequest cxConn cxRequest).1).chans cxRequest.token
      = { sent := [queryErrorResponse "encode failure"], closed := false } :=
  reply_delivery_per_path.2.1 cxConn cxRequest "encode failure" rfl rfl rfl

/-- The three event sources of the Router's `select`: the submission
queue (`conn.requestChan`), the decoded-response queue (`readChan`),
and the shutdown signal (`stopChan`). -/
inductive RouterEvent where
  | submission
  | response
  | stopSignal
deriving DecidableEq, Repr

/-- The Router loop's state: the Router-owned connection state, the
contents of the submission queue and of the decoded-response queue,
the response queue's capacity (`cap(readChan)`, 256 in `worker`), the
outbound queue handed to the Writer, the shutdown flag, and whether the
loop has exited. -/
structure RouterState where
  conn : Conn := {}
  requestQueue : List Request := []
  readQueue : List Response := []
  readCap : Nat := 256
  writeQueue : List Request := []
  stopped : Bool := false
  exited : Bool := false

/-- The backpressure guard at the top of each `ROUTER_LOOP` iteration:
if `len(readChan) > cap(readChan)/10` the submission source is set to
`nil` (disabled) for this iteration, otherwise it is re-enabled. -/
def submissionEnabled (s : RouterState) : Bool :=
  !(decide (s.readQueue.length > s.readCap / 10))

/-- One iteration of the Router loop serving the chosen event source:
`none` means that source cannot be selected in this iteration (disabled
by backpressure, or empty/unsignaled). A submission is processed by
`newRequest` and forwarded to the Writer's queue only when packing
succeeded; a response is processed by `handleReply`; the stop signal
exits the loop. -/
def routerStep (s : RouterState) (e : RouterEvent) : Option RouterState :=
  match e with
  | .submission =>
      if submissionEnabled s then
        match s.requestQueue with
        | [] => none
        | r :: rest =>
            let p := newRequest s.conn r
            match p.2 with
            | some r2 =>
                some
                  { s with
                    conn := p.1,
                    requestQueue := rest,
                    writeQueue := s.writeQueue ++ [r2] }
            | none =>
                some { s with conn := p.1, requestQueue := rest }
      else none
  | .response =>
      match s.readQueue with
      | [] => none
      | res :: rest =>
          some { s with conn := handleReply s.conn res, readQueue := rest }
  | .stopSignal =>
      if s.stopped then some { s with exited := true } else none

/-- C4: in an iteration whose decoded-response occupancy exceeds one
tenth of capacity the Router cannot select the submission source while
response draining stays selectable; once occupancy is back at or below
the threshold, a nonempty submission queue is selectable again. -/
theorem router_backpressure (s : RouterState) :
    (s.readQueue.length > s.readCap / 10 →
      routerStep s .submission = none ∧
      (s.readQueue ≠ [] → ∃ t, routerStep s .response = some t)) ∧
    (¬ s.readQueue.length > s.readCap / 10 →
      s.requestQueue ≠ [] → ∃ t, routerStep s .submission = some t) := by
  constructor
  · intro hgt
    constructor
    · simp [routerStep, submissionEnabled, hgt]
    · intro hne
      cases hq : s.readQueue with
      | nil => exact absurd hq hne
      | cons res rest =>
          exact ⟨{ s with conn := handleReply s.conn res, readQueue := rest },
            by simp [routerStep, hq]⟩
  · intro hle hne
    have henab : submissionEnabled s = true := by
      simp [submissionEnabled, hle]
    cases hq : s.requestQueue with
    | nil => exact absurd hq hne
    | cons r rest =>
        cases hp : (newRequest s.conn r).2 with
        | none =>
            refine ⟨{ s with conn := (newRequest s.conn r).1, requestQueue := rest }, ?_⟩
            simp [routerStep, henab, hq, hp]
        | some r2 =>
            refine
              ⟨{ s with
                 conn := (newRequest s.conn r).1,
                 requestQueue := rest,
                 writeQueue := s.writeQueue ++ [r2] }, ?_⟩
            simp [routerStep, henab, hq, hp]

/-- A Router state whose response queue (26 of 256) is over the 1/10
threshold, with a submission waiting. -/
def wRouterBusy : RouterState :=
  { requestQueue := [cxRequest], readQueue := List.replicate 26 {} }

/-- Witness for C4: over threshold the submission source yields nothing
and a response step exists; the same state with the response queue
drained accepts the submission. -/
theorem router_backpressure_witness :
    (routerStep wRouterBusy .submission = none ∧
      ∃ t, routerStep wRouterBusy .response = some t) ∧
    ∃ t, routerStep { wRouterBusy with readQueue := [] } .submission = some t :=
  ⟨⟨((router_backpressure wRouterBusy).1 (by simp [wRouterBusy])).1,
    ((router_backpressure wRouterBusy).1 (by simp [wRouterBusy])).2
      (by simp [wRouterBusy])⟩,
   (router_backpressure { wRouterBusy with readQueue := [] }).2
     (by simp) (by simp [wRouterBusy])⟩

/-- C7: a submission whose payload fails to pack is answered with a
query error on its own channel immediately, is neither registered nor
forwarded to the Writer's queue, and leaves every other channel, the
registry and the connection's lifecycle flag untouched. -/
theorem pack_failure_local (s : RouterState) (r : Request) (rest : List Request)
    (e : String)
    (hq : s.requestQueue = r :: rest)
    (henab : submissionEnabled s = true)
    (hpack : r.query (nextID s.conn.requestID) s.conn.defaultSpace = .error e)
    (hnone : lookupReq s.conn.requests (nextID s.conn.requestID) = none) :
    ∃ t, routerStep s .submission = some t ∧
      t.writeQueue = s.writeQueue ∧
      t.conn.requests = s.conn.requests ∧
      t.conn.chans r.token = send (s.conn.chans r.token) (queryErrorResponse e) ∧
      (∀ u, u ≠ r.token → t.conn.chans u = s.conn.chans u) ∧
      t.conn.closedDone = s.conn.closedDone := by
  have hp : (newRequest s.conn r).2 = none := by
    simp [newRequest, hnone, hpack]
  refine ⟨{ s with conn := (newRequest s.conn r).1, requestQueue := rest },
    ?_, ?_, ?_, ?_, ?_, ?_⟩
  · simp [routerStep, henab, hq, hp]
  · rfl
  · simp [newRequest, hnone, hpack]
  · simp [newRequest, hnone, hpack, updateChan]
  · intro u hu
    simp [newRequest, hnone, hpack, updateChan, hu]
  · simp [newRequest, hnone, hpack]

/-- A Router state holding exactly one submission that fails to pack. -/
def wRouterFail : RouterState := { requestQueue := [cxRequest] }

/-- Witness for C7 at a concrete state. -/
theorem pack_failure_local_witness :
    ∃ t, routerStep wRouterFail .submission = some t ∧
      t.writeQueue = wRouterFail.writeQueue ∧
      t.conn.requests = wRouterFail.conn.requests ∧
      t.conn.chans cxRequest.token
        = send (wRouterFail.conn.chans cxRequest.token)
            (queryErrorResponse "encode failure") ∧
      (∀ u, u ≠ cxRequest.token →
        t.conn.chans u = wRouterFail.conn.chans u) ∧
      t.conn.closedDone = wRouterFail.conn.closedDone :=
  pack_failure_local wRouterFail cxRequest [] "encode failure" rfl rfl rfl rfl

/-- The observable effects of `conn.stop()`: whether the `sync.Once`
body has run, and how many times `close(conn.exit)` and
`conn.tcpConn.Close()` have executed. -/
structure Teardown where
  onceDone : Bool := false
  exitCloseCount : Nat := 0
  socketCloseCount : Nat := 0
deriving DecidableEq, Repr

/-- `conn.stop()`: `closeOnce.Do` runs the broadcast-and-close body only
the first time. -/
def stop (t : Teardown) : Teardown :=
  if t.onceDone then t
  else
    { onceDone := true,
      exitCloseCount := t.exitCloseCount + 1,
      socketCloseCount := t.socketCloseCount + 1 }

lemma stop_stop (t : Teardown) : stop (stop t) = stop t := by
  by_cases h : t.onceDone <;> simp [stop, h]

lemma stop_iterate (t : Teardown) (n : Nat) : stop^[n] (stop t) = stop t := by
  induction n with
  | zero => rfl
  | succ m ih => rw [Function.iterate_succ_apply', ih, stop_stop]

/-- C8: any positive number of `Close`-triggered `stop` calls has the
effect of exactly one — the shutdown broadcast and the socket close each
run exactly once — and `Close` can only return (`conn.closed` is closed)
once `workerFinal` has run, at which point the registry has been fully
drained and every formerly pending request has received its single
connection-closed error on a closed channel; no Router operation sets
the `Close`-release flag. -/
theorem close_once_teardown :
    (∀ (t : Teardown) (n : Nat), 1 ≤ n → stop^[n] t = stop t) ∧
    (∀ (t : Teardown) (n : Nat), 1 ≤ n → t.onceDone = false →
      (stop^[n] t).exitCloseCount = t.exitCloseCount + 1 ∧
      (stop^[n] t).socketCloseCount = t.socketCloseCount + 1) ∧
    (∀ (c : Conn) (pending : List Request),
      (workerFinal c pending).closedDone = true ∧
      (workerFinal c pending).requests = []) ∧
    (∀ (c : Conn) (pending : List Request) (id : Nat) (req : Request),
      (id, req) ∈ c.requests →
      (c.requests.map (fun p => p.2.token)).Nodup →
      req.token ∉ pending.map Request.token →
      c.chans req.token = { sent := [], closed := false } →
      (workerFinal c pending).chans req.token
        = { sent := [connClosedResponse], closed := true }) ∧
    (∀ (c : Conn) (r : Request), ((newRequest c r).1).closedDone = c.closedDone) ∧
    (∀ (c : Conn) (res : Response), (handleReply c res).closedDone = c.closedDone) := by
  refine ⟨?_, ?_, ?_, ?_, ?_, ?_⟩
  · intro t n hn
    cases n with
    | zero => omega
    | succ m => rw [Function.iterate_succ_apply, stop_iterate]
  · intro t n hn hfalse
    have h1 : stop^[n] t = stop t := by
      cases n with
      | zero => omega
      | succ m => rw [Function.iterate_succ_apply, stop_iterate]
    rw [h1]
    simp [stop, hfalse]
  · intro c pending
    constructor
    · rfl
    · rfl
  · intro c pending id req hmem hnd hout hfresh
    have hmem2 : req ∈ c.requests.map Prod.snd := List.mem_map_of_mem Prod.snd hmem
    have hnd2 : ((c.requests.map Prod.snd).map Request.token).Nodup := by
      rw [List.map_map]
      exact hnd
    show (pending.foldl failPending (drainRegistry c).chans) req.token = _
    rw [foldl_failPending_not_mem _ _ _ hout]
    simp only [drainRegistry]
    rw [show (fun (ch : Nat → ChanSt) (p : Nat × Request) => failPending ch p.2)
          = fun ch p => failPending ch (Prod.snd p) from rfl,
        ← List.foldl_map Prod.snd failPending,
        foldl_failPending_mem _ _ _ hmem2 hnd2, hfresh]
    simp [send, closeChan]
  · intro c r
    cases hl : lookupReq c.requests (nextID c.requestID) with
    | none =>
        cases hq : r.query (nextID c.requestID) c.defaultSpace with
        | error e => simp [newRequest, hl, hq]
        | ok raw => simp [newRequest, hl, hq]
    | some old =>
        cases hq : r.query (nextID c.requestID) c.defaultSpace with
        | error e => simp [newRequest, hl, hq]
        | ok raw => simp [newRequest, hl, hq]
  · intro c res
    cases hl : lookupReq c.requests res.requestID with
    | none => simp [handleReply, hl]
    | some req => simp [handleReply, hl]

/-- A connection with one registered pending request, used to witness
the teardown drain. -/
def wConnC8 : Conn := { requestID := 1, requests := [(1, wOldC3)] }

/-- Witness for C8: two `stop` calls on a fresh teardown equal one, the
effects run exactly once, and `workerFinal` on a concrete connection
releases `Close` with the registry drained. -/
theorem close_once_teardown_witness :
    stop^[2] ({} : Teardown) = stop {} ∧
    (stop^[2] ({} : Teardown)).exitCloseCount = 1 ∧
    (workerFinal wConnC8 []).closedDone = true ∧
    (workerFinal wConnC8 []).chans wOldC3.token
      = { sent := [connClosedResponse], closed := true } :=
  ⟨close_once_teardown.1 {} 2 (by norm_num),
   (close_once_teardown.2.1 {} 2 (by norm_num) rfl).1,
   (close_once_teardown.2.2.1 wConnC8 []).1,
   close_once_teardown.2.2.2.1 wConnC8 [] 1 wOldC3 (by simp [wConnC8])
     (by simp [wConnC8]) (by simp) rfl⟩

/-- What one iteration of the Reader loop (`READER_LOOP`) can do. -/
inductive ReaderOutcome where
  | ioError
  | nilPointerPanic
  | delivered (res : Response) (rest : List Nat)
deriving DecidableEq, Repr

/-- One iteration of `reader`, on the remaining inbound byte stream.
As in the source: a 12-byte header is read, but `bodyLen` and
`requestID` are never assigned from it (the `UnpackInt` calls are
commented out, so both stay 0), the body read of `bodyLen` bytes
trivially succeeds, and `response` is assigned `nil` (the `UnpackBody`
call is commented out) before `response.requestID = requestID`
dereferences it. -/
def readerIteration (stream : List Nat) : ReaderOutcome :=
  if stream.length < 12 then .ioError
  else
    let bodyLen : Nat := 0
    let requestID : Nat := 0
    let afterHeader := stream.drop 12
    if afterHeader.length < bodyLen then .ioError
    else
      let response : Option Response := none
      match response with
      | none => .nilPointerPanic
      | some res =>
          .delivered { res with requestID := requestID } (afterHeader.drop bodyLen)

/-- C5 (code bug): once a 12-byte header is available, the Reader never
builds and delivers a decoded `Response`; it dereferences the `nil`
response stub instead. -/
theorem reader_nil_dereference :
    ∀ stream : List Nat, 12 ≤ stream.length →
      readerIteration stream = .nilPointerPanic ∧
      ∀ (res : Response) (rest : List Nat),
        readerIteration stream ≠ .delivered res rest := by
  intro stream h
  have h2 : ¬ stream.length < 12 := by omega
  constructor
  · simp [readerIteration, h2]
  · intro res rest
    simp [readerIteration, h2]

/-- Witness for C5 at a concrete 12-byte frame header. -/
theorem reader_nil_dereference_witness :
    readerIteration (List.replicate 12 0) = .nilPointerPanic :=
  (reader_nil_dereference (List.replicate 12 0) (by simp)).1

/-- `PacketLengthBytes`: the 5-byte length prefix (`0xCE` marker plus a
4-byte big-endian length). -/
def PacketLengthBytes : Nat := 5

/-- Modelled from the spec: `KeyCode`, the request-code key of the
2-entry header map; its numeric value is defined outside this file's
source and does not affect the framing claims. -/
def KeyCode : Nat := 0x00

/-- Modelled from the spec: `KeySync`, the correlation-sync key of the
2-entry header map; its numeric value is defined outside this file's
source and does not affect the framing claims. -/
def KeySync : Nat := 0x01

/-- Go's `byte(x)` truncation. -/
def byteOf (n : Nat) : Nat := n % 256

/-- The failure cases of `readMessage`: an I/O error from either
`ReadAtLeast`, the "Wrong reponse header" marker check, and the
"Response should not be 0 length" check. -/
inductive ReadErr where
  | ioError
  | wrongHeader
  | zeroLength
deriving DecidableEq, Repr

/-- `int(header[1])<<24 + int(header[2])<<16 + int(header[3])<<8 +
int(header[4])`. -/
def beUint32 : List Nat → Nat
  | [b1, b2, b3, b4] => b1 * 2 ^ 24 + b2 * 2 ^ 16 + b3 * 2 ^ 8 + b4
  | _ => 0

/-- `readMessage`: read the 5-byte prefix, require the `0xce` marker and
a nonzero big-endian body length, then read exactly that many body
bytes and return them. -/
def readMessage (stream : List Nat) : Except ReadErr (List Nat) :=
  if stream.length < PacketLengthBytes then .error .ioError
  else
    let header := stream.take PacketLengthBytes
    if header.headD 0 ≠ 0xce then .error .wrongHeader
    else
      let bodyLength := beUint32 (header.drop 1)
      if bodyLength = 0 then .error .zeroLength
      else
        let rest := stream.drop PacketLengthBytes
        if rest.length < bodyLength then .error .ioError
        else .ok (rest.take bodyLength)

/-- `packIproto`: the 14-byte header array `h` (marker, 4 length bytes,
the 2-entry map with request code and `0xce`-prefixed big-endian
request ID) followed by the body; `l = uint32(len(h) - 5 + len(body))
= (9 + len(body)) mod 2^32` is written big-endian into `h[1..4]`. -/
def packIproto (requestCode requestID : Nat) (body : List Nat) : List Nat :=
  let l : Nat := (9 + body.length) % 2 ^ 32
  0xce :: byteOf (l / 2 ^ 24) :: byteOf (l / 2 ^ 16) :: byteOf (l / 2 ^ 8) ::
  byteOf l :: 0x82 :: KeyCode :: byteOf requestCode :: KeySync :: 0xce ::
  byteOf (requestID / 2 ^ 24) :: byteOf (requestID / 2 ^ 16) ::
  byteOf (requestID / 2 ^ 8) :: byteOf requestID :: body

lemma beUint32_byteOf (l : Nat) (h : l < 2 ^ 32) :
    beUint32 [byteOf (l / 2 ^ 24), byteOf (l / 2 ^ 16), byteOf (l / 2 ^ 8),
      byteOf l] = l := by
  simp only [beUint32, byteOf]
  omega

/-- C6: `readMessage` applied to a `packIproto` frame succeeds and
returns exactly the bytes after the 5-byte length prefix, whose count
equals the encoded length field; and any stream whose first byte is not
`0xce`, or whose marker is right but whose encoded body length is zero,
is deterministically rejected. -/
theorem packIproto_roundtrip :
    (∀ (code id : Nat) (body : List Nat), 9 + body.length < 2 ^ 32 →
      readMessage (packIproto code id body)
          = .ok ((packIproto code id body).drop 5) ∧
      beUint32 (((packIproto code id body).take 5).drop 1)
          = ((packIproto code id body).drop 5).length) ∧
    (∀ (b0 : Nat) (rest : List Nat), b0 ≠ 0xce → 4 ≤ rest.length →
      readMessage (b0 :: rest) = .error .wrongHeader) ∧
    (∀ rest : List Nat, 4 ≤ rest.length → beUint32 (rest.take 4) = 0 →
      readMessage (0xce :: rest) = .error .zeroLength) := by
  refine ⟨?_, ?_, ?_⟩
  · intro code id body hlen
    have hmod : (9 + body.length) % 2 ^ 32 = 9 + body.length :=
      Nat.mod_eq_of_lt hlen
    have hbe : beUint32 [byteOf ((9 + body.length) / 2 ^ 24),
        byteOf ((9 + body.length) / 2 ^ 16), byteOf ((9 + body.length) / 2 ^ 8),
        byteOf (9 + body.length)] = 9 + body.length :=
      beUint32_byteOf _ hlen
    constructor
    · simp only [packIproto, readMessage, PacketLengthBytes, hmod]
      simp only [List.length_cons, List.take_succ_cons, List.take_zero,
        List.drop_succ_cons, List.drop_zero, List.headD_cons]
      rw [if_neg (by omega)]
      rw [if_neg (by norm_num)]
      simp only [hbe]
      rw [if_neg (by omega)]
      rw [if_neg (by omega)]
      rw [show (9 + body.length) = (0x82 :: KeyCode :: byteOf code :: KeySync ::
            (0xce : Nat) :: byteOf (id / 2 ^ 24) :: byteOf (id / 2 ^ 16) ::
            byteOf (id / 2 ^ 8) :: byteOf id :: body).length from by
          simp only [List.length_cons]
          omega,
        List.take_length]
    · simp only [packIproto, PacketLengthBytes, hmod]
      simp only [List.take_succ_cons, List.take_zero, List.drop_succ_cons,
        List.drop_zero, List.length_cons]
      rw [hbe]
      omega
  · intro b0 rest hb0 hrest
    have hlen : ¬ (b0 :: rest).length < PacketLengthBytes := by
      simp only [List.length_cons, PacketLengthBytes]
      omega
    simp only [readMessage]
    rw [if_neg hlen]
    rw [if_pos (by simp only [PacketLengthBytes, List.take_succ_cons,
      List.headD_cons]; exact hb0)]
  · intro rest hrest hz
    have hlen : ¬ (0xce :: rest).length < PacketLengthBytes := by
      simp only [List.length_cons, PacketLengthBytes]
      omega
    simp only [readMessage]
    rw [if_neg hlen]
    rw [if_neg (by simp [PacketLengthBytes])]
    rw [if_pos (by simp only [PacketLengthBytes, List.take_succ_cons,
      List.drop_succ_cons, List.drop_zero]; exact hz)]

/-- Witness for C6 at a concrete frame. -/
theorem packIproto_roundtrip_witness :
    readMessage (packIproto 2 7 [1, 2, 3])
        = .ok ((packIproto 2 7 [1, 2, 3]).drop 5) ∧
    readMessage (5 :: [0, 0, 0, 1, 9]) = .error .wrongHeader ∧
    readMessage (0xce :: [0, 0, 0, 0, 9]) = .error .zeroLength :=
  ⟨(packIproto_roundtrip.1 2 7 [1, 2, 3] (by norm_num)).1,
   packIproto_roundtrip.2.1 5 [0, 0, 0, 1, 9] (by norm_num) (by norm_num),
   packIproto_roundtrip.2.2 [0, 0, 0, 0, 9] (by norm_num) (by norm_num [beUint32])⟩

/-- `strings.Split(addr, "/")` on a character list. -/
def splitSlash : List Char → List (List Char)
  | [] => [[]]
  | ch :: rest =>
      let r := splitSlash rest
      if ch = '/' then [] :: r
      else
        match r with
        | [] => [[ch]]
        | g :: gs => (ch :: g) :: gs

/-- The default-space resolution of `Connect` (lines 65–88): `opts` is a
copy of `options`; when the caller gave no `DefaultSpace` and the
address has a `/`-separated part, an empty suffix is an error (`none`),
otherwise the suffix is written into the caller's `options` object —
while `conn.defaultSpace` is assigned from the unmutated copy `opts`.
Returns `(conn.defaultSpace, options.DefaultSpace)` after `Connect`. -/
def resolveDefaultSpace (addr : List Char) (optionsDefaultSpace : List Char) :
    Option (List Char × List Char) :=
  let opts := optionsDefaultSpace
  let splittedAddr := splitSlash addr
  if opts = [] then
    if splittedAddr.length > 1 then
      if splittedAddr.getD 1 [] = [] then none
      else some (opts, splittedAddr.getD 1 [])
    else some (opts, optionsDefaultSpace)
  else some (opts, optionsDefaultSpace)

/-- The address `host/tester` with a non-empty space suffix. -/
def wAddr : List Char := ['h', 'o', 's', 't', '/', 't', 'e', 's', 't', 'e', 'r']

/-- The space suffix of `wAddr`. -/
def wSpace : List Char := ['t', 'e', 's', 't', 'e', 'r']

/-- The address `host/` whose space suffix is empty. -/
def wAddrEmptySuffix : List Char := ['h', 'o', 's', 't', '/']

/-- C9 (code bug): with an empty `DefaultSpace` option and address
`host/tester`, the connection's negotiated default space comes out
empty — the parsed suffix is stored into the caller's `options` object
while `conn.defaultSpace` is copied from the unmutated `opts` copy — so
it does not equal the suffix; the empty-suffix error path does behave
as claimed. -/
theorem connect_space_lost :
    resolveDefaultSpace wAddr [] = some ([], wSpace) ∧
    (resolveDefaultSpace wAddr []).map Prod.fst ≠ some wSpace ∧
    resolveDefaultSpace wAddrEmptySuffix [] = none := by
  refine ⟨by decide, by decide, by decide⟩

/-- The `Connect` authentication block (lines 110–131), parametrized by
its collaborators: `Auth.Pack` returned `(authRaw, packErr)`, `write`
is `conn.tcpConn.Write`, and `awaitReply` stands for the subsequent
`readMessage`/`decodeResponse`/ID-check sequence on the socket. The
assignment `_, err = conn.tcpConn.Write(authRaw)` follows the `Pack`
call before `err` is ever examined, so `packErr` is dead. -/
def connectAuth (authRaw : List Nat) (packErr : Option String)
    (write : List Nat → Except String Unit)
    (awaitReply : Unit → Except String Response) : Except String Response :=
  let err : Option String := packErr
  let err : Option String :=
    match write authRaw with
    | .error e => some e
    | .ok _ => none
  match err with
  | some e => .error e
  | none => awaitReply ()

/-- C10: the outcome of the authentication block is entirely independent
of the error `Auth.Pack` reported — a pack failure behaves exactly as a
pack success over the same bytes, so `Connect` writes the bytes and
awaits a reply as if packing had succeeded. -/
theorem auth_pack_error_dropped :
    ∀ (authRaw : List Nat) (e : String)
      (write : List Nat → Except String Unit)
      (awaitReply : Unit → Except String Response),
      connectAuth authRaw (some e) write awaitReply
        = connectAuth authRaw none write awaitReply := by
  intro authRaw e write awaitReply
  simp only [connectAuth]

end Tnt
